import Mathlib

/-!
Verification of the Maka-Sitomniya datacube scripts.

This file gives a shallow embedding of the pure computational core of the
repository's Python scripts and proves (or refutes) the specification
claims about them.  Coordinates and data values (Python floats) are
modelled as rationals; Python lists/NumPy 1-d arrays as Lean lists;
dictionaries as association lists; fallible code as `Option`/`Except`.

Embedded components:
* `np.arange` and the spatial-bucketing bin/label computation shared by
  `CMIPProcessor.bucket_spatial` and `LandfireProcessor.bucket_spatial`;
* the undecoded-time fallback path of `CMIPProcessor.bucket_temporal`;
* the per-bucket aggregation reductions (mean/max/...) applied by the
  bucketing code;
* `LandfireProcessor._parse_bbox` and the `compute_mode` closure of
  `LandfireProcessor.bucket_spatial`;
* `DatacubeBuilder.create_unified_grid` / `build_datacube` (grid bounds,
  grid arrays, variable prefixing, cftime monthly time sequence);
* `MACASeasonalDownloader._start_export` / `_load_progress`;
* `OSMToGeoJSONConverter._convert_node_to_geojson` / `_convert_way_to_geojson`;
* the retry loop of `OSMDataGatherer._execute_overpass_query`.

The file is organised as a block of definitions (the embedding) followed
by a block of theorems (the claims and their supporting lemmas).
-/

namespace MakaSitomniya

/-! # Definitions -/

/-! ## NumPy primitives

`np.arange(start, stop, step)` for a positive step: the arithmetic
sequence start, start+step, ... with `ceil((stop-start)/step)` elements
(empty when that quantity is not positive). -/

def arange (start stop step : ℚ) : List ℚ :=
  (List.range (⌈(stop - start) / step⌉).toNat).map (fun (i : ℕ) => start + (i : ℚ) * step)

/-- Ascending sort over rationals, modelling the ascending order of
`np.unique` and the sort inside `np.median`. -/
def sortAsc (l : List ℚ) : List ℚ := List.insertionSort (fun a b => a ≤ b) l

/-! ## CMIP processor (src/datacube/scripts/cmip_processor.py) -/

namespace CMIPProcessor

/-- The `AggregationMethod` enum of cmip_processor.py. -/
inductive AggregationMethod
  | mean | median | max | min | sum | first | last | std | var
deriving DecidableEq

/-- One grid cell of one data variable: its latitude, longitude and value.
A dataset's data variable is a list of such cells. -/
structure GridCell where
  lat : ℚ
  lon : ℚ
  value : ℚ
deriving DecidableEq

/-- Bin edges of `bucket_spatial` for one spatial axis spanning
`[cmin, cmax]`: `np.arange(min, max + bucket_size, bucket_size)`
(cmip_processor.py lines 196-205). -/
def bucketBins (cmin cmax bsize : ℚ) : List ℚ :=
  arange cmin (cmax + bsize) bsize

/-- Bin labels of `bucket_spatial`: `bins[:-1] + bucket_size/2`
(cmip_processor.py lines 208-209). -/
def bucketLabels (cmin cmax bsize : ℚ) : List ℚ :=
  (bucketBins cmin cmax bsize).dropLast.map (fun e => e + bsize / 2)

/-- The values of the cells that `groupby_bins` places in the spatial
bucket with edges `(latLo, latHi]` × `(lonLo, lonHi]` (pandas `cut` with
`right=True`: a bin is closed on the right, open on the left). -/
def binValues (cells : List GridCell) (latLo latHi lonLo lonHi : ℚ) : List ℚ :=
  (cells.filter (fun c =>
    decide (latLo < c.lat) && decide (c.lat ≤ latHi) &&
    decide (lonLo < c.lon) && decide (c.lon ≤ lonHi))).map (fun c => c.value)

/-- Arithmetic mean, the `mean` reduction of xarray. -/
def meanQ (vs : List ℚ) : ℚ := vs.sum / vs.length

/-- Maximum of a value list, the `max` reduction of xarray (0 on the
empty list, which xarray never produces for a non-empty bucket). -/
def maxQ : List ℚ → ℚ
  | [] => 0
  | v :: vs => vs.foldl max v

/-- Minimum of a value list, the `min` reduction of xarray. -/
def minQ : List ℚ → ℚ
  | [] => 0
  | v :: vs => vs.foldl min v

/-- NumPy median: middle element of the ascending sort for odd length,
average of the two middle elements for even length. -/
def medianQ (vs : List ℚ) : ℚ :=
  let s := sortAsc vs
  let n := s.length
  if n % 2 = 1 then s.getD (n / 2) 0
  else (s.getD (n / 2 - 1) 0 + s.getD (n / 2) 0) / 2

/-- Population variance, the `var` reduction of xarray (ddof = 0). -/
def varQ (vs : List ℚ) : ℚ :=
  meanQ (vs.map (fun v => (v - meanQ vs) ^ 2))

/-- The aggregation dispatch of `bucket_spatial` (cmip_processor.py lines
225-244) applied to the values of one bucket.  `first`/`last` are the
positional selections `isel 0` / `isel -1` in the bucket's visit order.
`std` is the square root of the variance, which is not representable
over ℚ; no claim mentions it, so it is left unmodelled (`none`). -/
def aggregate : AggregationMethod → List ℚ → Option ℚ
  | .mean, vs => some (meanQ vs)
  | .median, vs => some (medianQ vs)
  | .max, vs => some (maxQ vs)
  | .min, vs => some (minQ vs)
  | .sum, vs => some vs.sum
  | .first, vs => vs.head?
  | .last, vs => vs.getLast?
  | .std, _ => none
  | .var, vs => some (varQ vs)

/-- One time step of one data variable: its time coordinate and value. -/
structure TimePoint where
  time : ℚ
  value : ℚ
deriving DecidableEq

/-- The values of the time steps that `resample(time=...)` places in one
temporal bucket with bounds `(tLo, tHi]`. -/
def resampleGroupValues (series : List TimePoint) (tLo tHi : ℚ) : List ℚ :=
  (series.filter (fun p => decide (tLo < p.time) && decide (p.time ≤ tHi))).map
    (fun p => p.value)

/-- The deprecated-frequency rewriting at the top of `bucket_temporal`
(cmip_processor.py lines 289-296). -/
def fixDeprecatedFreq (bucketSize : String) : String :=
  if bucketSize = "M" then "ME"
  else if bucketSize = "Q" then "QE"
  else if bucketSize = "Y" then "YE"
  else if bucketSize = "3M" then "3ME"
  else bucketSize

/-- The stride table of the undecoded-time fallback of `bucket_temporal`
(cmip_processor.py lines 303-315). -/
def strideForBucketSize (bucketSize : String) : Nat :=
  if bucketSize ∈ ["ME", "M", "1ME", "1M"] then 1
  else if bucketSize ∈ ["QE", "Q", "3ME", "3M"] then 3
  else if bucketSize ∈ ["YE", "Y", "12ME", "12M"] then 12
  else 1

/-- Python slicing `l[0 : None : k]`: the elements whose index is a
multiple of `k`. -/
def sliceEvery (k : Nat) (l : List α) : List α :=
  (l.enum.filter (fun p => p.1 % k == 0)).map (fun p => p.2)

/-- The undecoded-time path of `bucket_temporal` (cmip_processor.py lines
299-326): when the time coordinate is not decoded as datetimes the
dataset (modelled as its list of time steps, each step carrying the data
of all variables at that time) is returned subsampled by
`isel(time=slice(0, None, buckets))`; the aggregation method is never
consulted on this path. -/
def bucketTemporalUndecoded (timeSteps : List α) (bucketSize : String)
    (aggMethod : AggregationMethod) : List α :=
  sliceEvery (strideForBucketSize (fixDeprecatedFreq bucketSize)) timeSteps

end CMIPProcessor

/-! ## LANDFIRE processor (src/datacube/scripts/landfire_processor.py) -/

namespace LandfireProcessor

/-- The `AggregationMethod` enum of landfire_processor.py (categorical
aggregation methods). -/
inductive AggregationMethod
  | mode | majority | first | last
deriving DecidableEq

/-- Splitting a character list at whitespace, accumulating the current
token; models Python `str.split()` together with `pySplit`. -/
def splitWsAux (cs : List Char) (acc : List Char) : List (List Char) :=
  match cs with
  | [] => [acc.reverse]
  | c :: rest =>
    if c.isWhitespace then acc.reverse :: splitWsAux rest []
    else splitWsAux rest (c :: acc)

/-- Python `str.split()` with no argument: split on runs of whitespace
and drop empty tokens. -/
def pySplit (s : String) : List String :=
  ((splitWsAux s.data []).map (fun cs => String.mk cs)).filter (fun t => t ≠ "")

/-- `LandfireProcessor._parse_bbox` (landfire_processor.py lines 101-110):
split the bounding-box string on whitespace, require exactly four tokens,
and convert each with Python `float()`.  The float conversion is the
Python builtin, passed in as `toFloat` (returning `none` where `float()`
would raise `ValueError`). -/
def parseBbox (toFloat : String → Option ℚ) (bbox : String) :
    Except String (ℚ × ℚ × ℚ × ℚ) :=
  match pySplit bbox with
  | [p0, p1, p2, p3] =>
    match toFloat p0, toFloat p1, toFloat p2, toFloat p3 with
    | some minx, some miny, some maxx, some maxy => .ok (minx, miny, maxx, maxy)
    | _, _, _, _ => .error "could not convert string to float"
  | _ => .error "Bounding box must be in format minx miny maxx maxy"

/-- Bin edges of the LANDFIRE `bucket_spatial` (landfire_processor.py
lines 321-330), identical to the CMIP computation. -/
def bucketBins (cmin cmax bsize : ℚ) : List ℚ :=
  arange cmin (cmax + bsize) bsize

/-- Bin labels of the LANDFIRE `bucket_spatial` (landfire_processor.py
lines 333-334). -/
def bucketLabels (cmin cmax bsize : ℚ) : List ℚ :=
  (bucketBins cmin cmax bsize).dropLast.map (fun e => e + bsize / 2)

/-- `np.unique(a, return_counts=True)`: the distinct values of `a` in
ascending order, each paired with its number of occurrences. -/
def npUnique (l : List ℚ) : List ℚ × List Nat :=
  let values := sortAsc l.dedup
  (values, values.map (fun v => l.count v))

/-- `np.argmax`: the index of the first occurrence of the maximum
(0 on the empty list, where NumPy raises). -/
def argmaxIdx (counts : List Nat) : Nat :=
  counts.indexOf (counts.foldr max 0)

/-- The `compute_mode` closure of the LANDFIRE `bucket_spatial`
(landfire_processor.py lines 343-345):

    values, counts = np.unique(array.values, return_counts=True)
    return values[np.argmax(counts)]
-/
def compute_mode (l : List ℚ) : ℚ :=
  let vc := npUnique l
  vc.1.getD (argmaxIdx vc.2) 0

end LandfireProcessor

/-! ## Python string primitives shared by several modules -/

/-- Python `str.lower()`. -/
def pyLower (s : String) : String := String.mk (s.data.map Char.toLower)

/-! ## MACA seasonal batch exporter (src/datacube/maca_seasonal_batch.py) -/

namespace MACASeasonalBatch

/-- `MACASeasonalDownloader._task_id` (maca_seasonal_batch.py lines
124-126): the deterministic job key of one export combination. -/
def taskId (var model scen : String) (yr0 yr1 : Int) (season : String) : String :=
  var ++ "_" ++ model ++ "_" ++ scen ++ "_" ++ toString yr0 ++ "_" ++
    toString yr1 ++ "_" ++ season

/-- `MACASeasonalDownloader._load_progress` (lines 115-118): the JSON
list read from the progress file, or the empty set when the file does
not exist. -/
def loadProgress (progressFile : Option (List String)) : List String :=
  progressFile.getD []

/-- The mutable state of `MACASeasonalDownloader` touched by
`_start_export`: the persisted set of completed job keys and the
in-memory list of started export tasks (identified here by their job
keys). -/
structure DownloaderState where
  completedTasks : List String
  activeTasks : List String
deriving DecidableEq

/-- `MACASeasonalDownloader._start_export` (lines 129-181).  The remote
Earth Engine collection is opaque to the script; `collectionSize` is the
value of `seasonal.size().getInfo()` for this combination, queried only
when the combination is not already recorded as completed.  The function
returns the Python return value and the post-call state. -/
def startExport (st : DownloaderState) (tid : String) (collectionSize : Nat) :
    Bool × DownloaderState :=
  if tid ∈ st.completedTasks then (true, st)
  else if collectionSize = 0 then (false, st)
  else (true, { completedTasks := st.completedTasks ++ [tid],
                activeTasks := st.activeTasks ++ [tid] })

end MACASeasonalBatch

/-! ## Overpass retry loop (src/datacube/osm_data_gatherer.py) -/

namespace OSMDataGatherer

/-- The observable trace of one `_execute_overpass_query` call: its
return value, how many HTTP attempts it made, and the seconds slept
between attempts, in order. -/
structure RetryTrace (α : Type) where
  result : Option α
  attemptsMade : Nat
  sleeps : List Nat
deriving DecidableEq

/-- The `for attempt in range(max_retries)` loop of
`_execute_overpass_query` (osm_data_gatherer.py lines 98-119).
`attemptResult i` is the outcome of the HTTP request on attempt `i`
(`none` for a raised `RequestException`).  `remaining` counts the loop
iterations still available, so a call site uses
`remaining = maxRetries - attempt`; after a failure the code sleeps
`2 ^ attempt` seconds only when `attempt < max_retries - 1`, i.e. when
further iterations remain. -/
def executeAttempts (attemptResult : Nat → Option α) :
    Nat → Nat → RetryTrace α
  | 0, _ => ⟨none, 0, []⟩
  | remaining + 1, attempt =>
    match attemptResult attempt with
    | some r => ⟨some r, 1, []⟩
    | none =>
      if remaining = 0 then ⟨none, 1, []⟩
      else
        let rest := executeAttempts attemptResult remaining (attempt + 1)
        ⟨rest.result, rest.attemptsMade + 1, 2 ^ attempt :: rest.sleeps⟩

/-- `_execute_overpass_query` (osm_data_gatherer.py lines 88-120) with
its default `max_retries = 3`: run the attempt loop from attempt 0.
When the loop exhausts all attempts the Python function falls through
and returns `None` rather than raising. -/
def executeOverpassQuery (attemptResult : Nat → Option α)
    (maxRetries : Nat := 3) : RetryTrace α :=
  executeAttempts attemptResult maxRetries 0

end OSMDataGatherer

/-! ## OSM to GeoJSON converter (src/datacube/osm_to_geojson.py)

The converter only moves coordinate values around and compares them for
equality, so the model is generic in the coordinate type `C`. -/

namespace OSMToGeoJSON

/-- An OSM node element: id, position, optional tag dictionary. -/
structure OsmNode (C : Type) where
  id : Int
  lat : C
  lon : C
  tags : Option (List (String × String))

/-- One point of a way's `geometry` array. -/
structure OsmWayPoint (C : Type) where
  lat : C
  lon : C
deriving DecidableEq

/-- An OSM way element: id, geometry points, optional tag dictionary.
A missing or empty `geometry` key is modelled by the empty list. -/
structure OsmWay (C : Type) where
  id : Int
  geometry : List (OsmWayPoint C)
  tags : Option (List (String × String))

/-- GeoJSON geometry as produced by the converter. -/
inductive Geometry (C : Type)
  | point (coordinates : C × C)
  | lineString (coordinates : List (C × C))
  | polygon (rings : List (List (C × C)))
deriving DecidableEq

/-- A GeoJSON feature: its geometry and its properties
(`osm_id`, `osm_type`, and the element's tags). -/
structure Feature (C : Type) where
  geometry : Geometry C
  osmId : Int
  osmType : String
  tags : List (String × String)
deriving DecidableEq

/-- The fixed `polygon_tags` set of `_convert_way_to_geojson`
(osm_to_geojson.py lines 92-96). -/
def polygonTags : List String :=
  ["building", "landuse", "natural", "leisure", "amenity", "shop",
   "office", "industrial", "residential", "commercial", "area"]

/-- The area decision of `_convert_way_to_geojson` (lines 98-104):
`is_area = any(tag in way.tags for tag in polygon_tags)`, then overridden
by the explicit `area` tag value when an `area` key is present. -/
def isAreaTags (tags : List (String × String)) : Bool :=
  let base := polygonTags.any (fun t => (tags.lookup t).isSome)
  match tags.lookup "area" with
  | some v => pyLower v ∈ ["yes", "true", "1"]
  | none => base

/-- The coordinate list `[[p.lon, p.lat] for p in way.geometry]`
(line 72). -/
def wayCoords {C : Type} (way : OsmWay C) : List (C × C) :=
  way.geometry.map (fun p => (p.lon, p.lat))

/-- The `is_area` value for a way (false when the way has no tags). -/
def wayIsArea {C : Type} (way : OsmWay C) : Bool :=
  match way.tags with
  | some tags => isAreaTags tags
  | none => false

/-- `_convert_node_to_geojson` (osm_to_geojson.py lines 30-56): every
node becomes one Point feature at `[lon, lat]`. -/
def convertNode {C : Type} (node : OsmNode C) : Feature C :=
  { geometry := .point (node.lon, node.lat)
    osmId := node.id
    osmType := "node"
    tags := node.tags.getD [] }

/-- `_convert_way_to_geojson` (osm_to_geojson.py lines 58-123): drop a
way with missing/empty geometry or fewer than two coordinates; otherwise
build a Polygon with the coordinate list as its single ring when the way
is closed (first coordinate equals last) and the area test passes, and a
LineString otherwise. -/
def convertWay {C : Type} [DecidableEq C] (way : OsmWay C) : Option (Feature C) :=
  if way.geometry = [] then none
  else
    let coordinates := wayCoords way
    if coordinates.length < 2 then none
    else
      let isClosed : Bool := coordinates.head? = coordinates.getLast?
      let geometry : Geometry C :=
        if isClosed && wayIsArea way then .polygon [coordinates]
        else .lineString coordinates
      some { geometry := geometry
             osmId := way.id
             osmType := "way"
             tags := way.tags.getD [] }

/-- The claim's reading of an area-indicating tag set (C6): one of the
ten listed keys is present, or the `area` tag has value yes/true/1.
This follows the claim's words; the code's `isAreaTags` differs when an
`area` key with a non-affirmative value coexists with one of the listed
keys. -/
def specAreaIndicating (tags : List (String × String)) : Prop :=
  (∃ k ∈ ["building", "landuse", "natural", "leisure", "amenity", "shop",
          "office", "industrial", "residential", "commercial"],
      (tags.lookup k).isSome = true) ∨
  (∃ v, tags.lookup "area" = some v ∧ pyLower v ∈ ["yes", "true", "1"])

/-- The closed, building-tagged, area=no way used to refute C6. -/
def c6Way : OsmWay ℤ :=
  { id := 1
    geometry := [⟨0, 0⟩, ⟨1, 1⟩, ⟨0, 0⟩]
    tags := some [("building", "yes"), ("area", "no")] }

end OSMToGeoJSON

/-! ## Datacube builder (src/datacube/scripts/datacube_builder.py) -/

namespace DatacubeBuilder

/-- One dataset added to the builder whose latitude, longitude and time
dimensions have been identified through the alias lists
(`lat`/`latitude`/`y`, `lon`/`longitude`/`x`, `time`/`date`/`t`).
`latMin` is `float(dataset[lat_dim].min())` and so on; `varNames` the
dataset's data variables. -/
structure SpatialDataset where
  latMin : ℚ
  latMax : ℚ
  lonMin : ℚ
  lonMax : ℚ
  varNames : List String

/-- The `min_lat` accumulation of `create_unified_grid`
(datacube_builder.py lines 122-131): initialised to 90 and lowered by
each dataset's latitude minimum. -/
def datasetsLatMin (datasets : List (String × SpatialDataset)) : ℚ :=
  datasets.foldl (fun acc p => min acc p.2.latMin) 90

/-- The `max_lat` accumulation (lines 122-131): initialised to -90. -/
def datasetsLatMax (datasets : List (String × SpatialDataset)) : ℚ :=
  datasets.foldl (fun acc p => max acc p.2.latMax) (-90)

/-- The `min_lon` accumulation (lines 123-137): initialised to 180. -/
def datasetsLonMin (datasets : List (String × SpatialDataset)) : ℚ :=
  datasets.foldl (fun acc p => min acc p.2.lonMin) 180

/-- The `max_lon` accumulation (lines 123-137): initialised to -180. -/
def datasetsLonMax (datasets : List (String × SpatialDataset)) : ℚ :=
  datasets.foldl (fun acc p => max acc p.2.lonMax) (-180)

/-- The unified latitude grid of `create_unified_grid` (line 162):
`np.arange(min_lat, max_lat + lat_resolution/2, lat_resolution)`. -/
def unifiedLats (datasets : List (String × SpatialDataset)) (latResolution : ℚ) : List ℚ :=
  arange (datasetsLatMin datasets) (datasetsLatMax datasets + latResolution / 2) latResolution

/-- The unified longitude grid of `create_unified_grid` (line 163). -/
def unifiedLons (datasets : List (String × SpatialDataset)) (lonResolution : ℚ) : List ℚ :=
  arange (datasetsLonMin datasets) (datasetsLonMax datasets + lonResolution / 2) lonResolution

/-- The data-variable names of the combined datacube built by
`build_datacube` (lines 599-603): every variable of every dataset,
prefixed with the dataset's identifier. -/
def prefixedVarNames (datasets : List (String × SpatialDataset)) : List String :=
  (datasets.map (fun p => p.2.varNames.map (fun v => p.1 ++ "_" ++ v))).join

/-- A `cftime.DatetimeNoLeap` calendar date as used by the non-standard
calendar branch of `create_unified_grid`. -/
structure CFDate where
  year : Int
  month : Nat
  day : Nat
deriving DecidableEq

/-- The linear month index `12 * year + month` of a date. -/
def monthIndex (d : CFDate) : Int := d.year * 12 + d.month

/-- cftime date comparison `current <= end_date`.  For calendar dates
(month between 1 and 12, so the month index orders dates before the day
tie-break) this equals lexicographic comparison of (year, month, day). -/
def cfLe (a b : CFDate) : Bool :=
  decide (monthIndex a < monthIndex b) ||
    (decide (monthIndex a = monthIndex b) && decide (a.day ≤ b.day))

/-- One step of the monthly loop of `create_unified_grid` (lines
205-209): `year = current.year + (current.month // 12)`,
`month = (current.month % 12) + 1`, `DatetimeNoLeap(year, month, 15)`. -/
def nextMonthMid (c : CFDate) : CFDate :=
  ⟨c.year + (c.month / 12 : Nat), c.month % 12 + 1, 15⟩

/-- The `while current <= end_date` monthly loop, bounded by fuel.  Each
iteration raises the month index by exactly one
(`monthIndex_nextMonthMid`) and the guard forces the index to stay at or
below the stop date's, so the fuel chosen in `monthlySeq` never runs out
while the guard still holds (`monthlySeqAux_fuel_irrelevant`); the fuel
form and the Python while loop produce the same list. -/
def monthlySeqAux (stop : CFDate) : Nat → CFDate → List CFDate
  | 0, _ => []
  | fuel + 1, current =>
    if cfLe current stop then current :: monthlySeqAux stop fuel (nextMonthMid current)
    else []

/-- The monthly time sequence of the non-standard-calendar branch of
`create_unified_grid` (lines 199-210): starting at the earliest input
time, append dates while `current <= end_date`, advancing to the 15th of
the next month. -/
def monthlySeq (start stop : CFDate) : List CFDate :=
  monthlySeqAux stop (monthIndex stop + 1 - monthIndex start).toNat start

/-- The claim's span property (C6 of the spec, C3 here): a coordinate
grid spans at least the union of the datasets' extents when it has a
point at or below every dataset's minimum and a point at or above every
dataset's maximum.  This follows the claim's words; the code's grid can
stop short of the maximum. -/
def specSpansUnion (lats : List ℚ) (datasets : List (String × SpatialDataset)) : Prop :=
  ∀ p ∈ datasets, (∃ lo ∈ lats, lo ≤ p.2.latMin) ∧ (∃ hi ∈ lats, p.2.latMax ≤ hi)

/-- A one-dataset builder state refuting C3: latitude extent
`[10, 10.4]` with 1-degree resolution gives the grid `[10]`, which does
not reach 10.4. -/
def c3CexDatasets : List (String × SpatialDataset) :=
  [("temperature", ⟨10, 52 / 5, 0, 1, ["temperature"]⟩)]

end DatacubeBuilder

/-! # Theorems -/

/-! ## Basic lemmas about the NumPy primitives -/

theorem arange_length (start stop step : ℚ) :
    (arange start stop step).length = (⌈(stop - start) / step⌉).toNat := by
  rw [arange, List.length_map, List.length_range]

theorem arange_get (start stop step : ℚ) (i : ℕ)
    (h : i < (arange start stop step).length) :
    (arange start stop step).get ⟨i, h⟩ = start + (i : ℚ) * step := by
  simp only [arange, List.get_eq_getElem, List.getElem_map, List.getElem_range]

/-! ## C1: bin count and labels of bucket_spatial -/

theorem bucketBins_length (cmin cmax bsize : ℚ) (hB : 0 < bsize) (hle : cmin ≤ cmax) :
    ((CMIPProcessor.bucketBins cmin cmax bsize).length : ℤ) = ⌈(cmax - cmin) / bsize⌉ + 1 := by
  have hkey : ⌈(cmax + bsize - cmin) / bsize⌉ = ⌈(cmax - cmin) / bsize⌉ + 1 := by
    have : (cmax + bsize - cmin) / bsize = (cmax - cmin) / bsize + 1 := by
      field_simp
      ring
    rw [this, Int.ceil_add_one]
  have hnonneg : 0 ≤ ⌈(cmax - cmin) / bsize⌉ := by
    apply Int.ceil_nonneg
    apply div_nonneg (by linarith) (le_of_lt hB)
  rw [CMIPProcessor.bucketBins, arange_length, hkey]
  omega

theorem bucketLabels_length (cmin cmax bsize : ℚ) (hB : 0 < bsize) (hle : cmin ≤ cmax) :
    ((CMIPProcessor.bucketLabels cmin cmax bsize).length : ℤ) = ⌈(cmax - cmin) / bsize⌉ := by
  have h := bucketBins_length cmin cmax bsize hB hle
  have hnonneg : 0 ≤ ⌈(cmax - cmin) / bsize⌉ := by
    apply Int.ceil_nonneg
    apply div_nonneg (by linarith) (le_of_lt hB)
  rw [CMIPProcessor.bucketLabels, List.length_map, List.length_dropLast]
  omega

theorem bucketLabels_get (cmin cmax bsize : ℚ) (i : ℕ)
    (h : i < (CMIPProcessor.bucketLabels cmin cmax bsize).length)
    (hb : i < (CMIPProcessor.bucketBins cmin cmax bsize).length) :
    (CMIPProcessor.bucketLabels cmin cmax bsize).get ⟨i, h⟩ =
      (CMIPProcessor.bucketBins cmin cmax bsize).get ⟨i, hb⟩ + bsize / 2 := by
  simp only [CMIPProcessor.bucketLabels, List.get_eq_getElem, List.getElem_map,
    List.getElem_dropLast]

theorem landfire_bins_eq (cmin cmax bsize : ℚ) :
    LandfireProcessor.bucketBins cmin cmax bsize = CMIPProcessor.bucketBins cmin cmax bsize ∧
    LandfireProcessor.bucketLabels cmin cmax bsize = CMIPProcessor.bucketLabels cmin cmax bsize :=
  ⟨rfl, rfl⟩

/-- C1: spatial bucketing over an axis spanning `[cmin, cmax]` with bucket
size `bsize > 0` (both the CMIP and the LANDFIRE `bucket_spatial`) produces
`⌈(cmax - cmin) / bsize⌉` bins, and the label of every bin is its left edge
plus `bsize / 2`. -/
theorem c1_bucket_spatial_bins (cmin cmax bsize : ℚ) (hB : 0 < bsize) (hle : cmin ≤ cmax) :
    (((CMIPProcessor.bucketLabels cmin cmax bsize).length : ℤ) = ⌈(cmax - cmin) / bsize⌉ ∧
      ∀ i (h : i < (CMIPProcessor.bucketLabels cmin cmax bsize).length)
        (hb : i < (CMIPProcessor.bucketBins cmin cmax bsize).length),
        (CMIPProcessor.bucketLabels cmin cmax bsize).get ⟨i, h⟩ =
          (CMIPProcessor.bucketBins cmin cmax bsize).get ⟨i, hb⟩ + bsize / 2) ∧
    (((LandfireProcessor.bucketLabels cmin cmax bsize).length : ℤ) = ⌈(cmax - cmin) / bsize⌉ ∧
      ∀ i (h : i < (LandfireProcessor.bucketLabels cmin cmax bsize).length)
        (hb : i < (LandfireProcessor.bucketBins cmin cmax bsize).length),
        (LandfireProcessor.bucketLabels cmin cmax bsize).get ⟨i, h⟩ =
          (LandfireProcessor.bucketBins cmin cmax bsize).get ⟨i, hb⟩ + bsize / 2) :=
  ⟨⟨bucketLabels_length cmin cmax bsize hB hle, bucketLabels_get cmin cmax bsize⟩,
   ⟨bucketLabels_length cmin cmax bsize hB hle, bucketLabels_get cmin cmax bsize⟩⟩

/-! ## C2: undecoded-time temporal bucketing -/

theorem sliceEvery_one (l : List α) : MakaSitomniya.CMIPProcessor.sliceEvery 1 l = l := by
  have h : l.enum.filter (fun p => p.1 % 1 == 0) = l.enum := by
    apply List.filter_eq_self.mpr
    intro a _
    simp [Nat.mod_one]
  simp [CMIPProcessor.sliceEvery, h, List.enum_map_snd]

theorem strideForBucketSize_fix_eq (b : String) :
    CMIPProcessor.strideForBucketSize (CMIPProcessor.fixDeprecatedFreq b) =
      CMIPProcessor.strideForBucketSize b := by
  by_cases h1 : b = "M"
  · subst h1; rfl
  by_cases h2 : b = "Q"
  · subst h2; rfl
  by_cases h3 : b = "Y"
  · subst h3; rfl
  by_cases h4 : b = "3M"
  · subst h4; rfl
  simp [CMIPProcessor.fixDeprecatedFreq, h1, h2, h3, h4]

/-- C2: on the undecoded-time path, `bucket_temporal` ignores the
aggregation method and returns the whole dataset subsampled along time by
a fixed stride: 1 for the monthly bucket-size strings, 3 for the
quarterly ones, 12 for the yearly ones, and 1 (a pass-through returning
the unchanged input) for every other bucket-size string. -/
theorem c2_bucket_temporal_undecoded {α : Type} (timeSteps : List α) (bucketSize : String)
    (agg agg2 : CMIPProcessor.AggregationMethod) :
    CMIPProcessor.bucketTemporalUndecoded timeSteps bucketSize agg =
        CMIPProcessor.bucketTemporalUndecoded timeSteps bucketSize agg2 ∧
    (bucketSize ∈ ["ME", "M", "1ME", "1M"] →
      CMIPProcessor.bucketTemporalUndecoded timeSteps bucketSize agg =
        CMIPProcessor.sliceEvery 1 timeSteps) ∧
    (bucketSize ∈ ["QE", "Q", "3ME", "3M"] →
      CMIPProcessor.bucketTemporalUndecoded timeSteps bucketSize agg =
        CMIPProcessor.sliceEvery 3 timeSteps) ∧
    (bucketSize ∈ ["YE", "Y", "12ME", "12M"] →
      CMIPProcessor.bucketTemporalUndecoded timeSteps bucketSize agg =
        CMIPProcessor.sliceEvery 12 timeSteps) ∧
    (bucketSize ∉ ["ME", "M", "1ME", "1M"] → bucketSize ∉ ["QE", "Q", "3ME", "3M"] →
      bucketSize ∉ ["YE", "Y", "12ME", "12M"] →
      CMIPProcessor.bucketTemporalUndecoded timeSteps bucketSize agg = timeSteps) := by
  refine ⟨rfl, ?_, ?_, ?_, ?_⟩
  · intro hm
    rw [CMIPProcessor.bucketTemporalUndecoded, strideForBucketSize_fix_eq]
    congr 1
    fin_cases hm <;> rfl
  · intro hm
    rw [CMIPProcessor.bucketTemporalUndecoded, strideForBucketSize_fix_eq]
    congr 1
    fin_cases hm <;> rfl
  · intro hm
    rw [CMIPProcessor.bucketTemporalUndecoded, strideForBucketSize_fix_eq]
    congr 1
    fin_cases hm <;> rfl
  · intro h1 h2 h3
    rw [CMIPProcessor.bucketTemporalUndecoded, strideForBucketSize_fix_eq]
    have hs : CMIPProcessor.strideForBucketSize bucketSize = 1 := by
      simp only [CMIPProcessor.strideForBucketSize, if_neg h2, if_neg h3]
      simp [h1]
    rw [hs, sliceEvery_one]

/-- C2 witness: a quarterly bucket string subsamples a four-step series
with stride 3, and an unsupported string passes the input through. -/
theorem c2_bucket_temporal_undecoded_witness :
    ("QE" ∈ ["QE", "Q", "3ME", "3M"] ∧
      CMIPProcessor.bucketTemporalUndecoded [0, 1, 2, 3] "QE"
          CMIPProcessor.AggregationMethod.mean = CMIPProcessor.sliceEvery 3 [0, 1, 2, 3]) ∧
    CMIPProcessor.bucketTemporalUndecoded [0, 1, 2, 3] "10D"
        CMIPProcessor.AggregationMethod.mean = [0, 1, 2, 3] :=
  ⟨⟨by decide,
    (c2_bucket_temporal_undecoded [0, 1, 2, 3] "QE" CMIPProcessor.AggregationMethod.mean
      CMIPProcessor.AggregationMethod.mean).2.2.1 (by decide)⟩,
   (c2_bucket_temporal_undecoded [0, 1, 2, 3] "10D" CMIPProcessor.AggregationMethod.mean
      CMIPProcessor.AggregationMethod.mean).2.2.2.2 (by decide) (by decide) (by decide)⟩

/-! ## C5: MAX dominates MEAN on every non-empty bucket -/

theorem le_foldl_max (ys : List ℚ) (b : ℚ) : b ≤ ys.foldl max b := by
  induction ys generalizing b with
  | nil => exact le_refl b
  | cons y t ih =>
    calc b ≤ max b y := le_max_left b y
    _ ≤ t.foldl max (max b y) := ih (max b y)

theorem mem_le_foldl_max (ys : List ℚ) (b v : ℚ) (hv : v ∈ ys) : v ≤ ys.foldl max b := by
  induction ys generalizing b with
  | nil => cases hv
  | cons y t ih =>
    rcases List.mem_cons.mp hv with rfl | hvt
    · calc v ≤ max b v := le_max_right b v
      _ ≤ t.foldl max (max b v) := le_foldl_max t (max b v)
    · exact ih (max b y) hvt

theorem le_maxQ (vs : List ℚ) (v : ℚ) (hv : v ∈ vs) : v ≤ CMIPProcessor.maxQ vs := by
  match vs with
  | [] => cases hv
  | x :: xs =>
    rcases List.mem_cons.mp hv with rfl | hvt
    · exact le_foldl_max xs v
    · exact mem_le_foldl_max xs x v hvt

theorem meanQ_le_maxQ (vs : List ℚ) (h : vs ≠ []) :
    CMIPProcessor.meanQ vs ≤ CMIPProcessor.maxQ vs := by
  have hlen : 0 < (vs.length : ℚ) := by
    have := List.length_pos.mpr h
    exact_mod_cast this
  rw [CMIPProcessor.meanQ, div_le_iff₀ hlen]
  have hsum : vs.sum ≤ vs.length • CMIPProcessor.maxQ vs :=
    List.sum_le_card_nsmul vs _ (fun v hv => le_maxQ vs v hv)
  calc vs.sum ≤ vs.length • CMIPProcessor.maxQ vs := hsum
  _ = CMIPProcessor.maxQ vs * vs.length := by rw [nsmul_eq_mul]; ring

/-- C5: on every non-empty bucket, the value produced by the MAX
aggregation is at least the value produced by MEAN, both for a spatial
bucket of `bucket_spatial` and for a temporal bucket of
`bucket_temporal`. -/
theorem c5_max_ge_mean (cells : List CMIPProcessor.GridCell) (latLo latHi lonLo lonHi : ℚ)
    (series : List CMIPProcessor.TimePoint) (tLo tHi : ℚ)
    (hs : CMIPProcessor.binValues cells latLo latHi lonLo lonHi ≠ [])
    (ht : CMIPProcessor.resampleGroupValues series tLo tHi ≠ []) :
    (∀ m M,
      CMIPProcessor.aggregate CMIPProcessor.AggregationMethod.mean
          (CMIPProcessor.binValues cells latLo latHi lonLo lonHi) = some m →
      CMIPProcessor.aggregate CMIPProcessor.AggregationMethod.max
          (CMIPProcessor.binValues cells latLo latHi lonLo lonHi) = some M →
      m ≤ M) ∧
    (∀ m M,
      CMIPProcessor.aggregate CMIPProcessor.AggregationMethod.mean
          (CMIPProcessor.resampleGroupValues series tLo tHi) = some m →
      CMIPProcessor.aggregate CMIPProcessor.AggregationMethod.max
          (CMIPProcessor.resampleGroupValues series tLo tHi) = some M →
      m ≤ M) := by
  constructor
  · intro m M hm hM
    simp only [CMIPProcessor.aggregate, Option.some.injEq] at hm hM
    rw [← hm, ← hM]
    exact meanQ_le_maxQ _ hs
  · intro m M hm hM
    simp only [CMIPProcessor.aggregate, Option.some.injEq] at hm hM
    rw [← hm, ← hM]
    exact meanQ_le_maxQ _ ht

/-- C5 witness: one cell inside a unit bucket on each axis. -/
theorem c5_max_ge_mean_witness :
    CMIPProcessor.binValues [⟨1, 1, 5⟩] 0 2 0 2 ≠ [] ∧
    CMIPProcessor.resampleGroupValues [⟨1, 7⟩] 0 2 ≠ [] ∧
    (∀ m M,
      CMIPProcessor.aggregate CMIPProcessor.AggregationMethod.mean
          (CMIPProcessor.binValues [⟨1, 1, 5⟩] 0 2 0 2) = some m →
      CMIPProcessor.aggregate CMIPProcessor.AggregationMethod.max
          (CMIPProcessor.binValues [⟨1, 1, 5⟩] 0 2 0 2) = some M →
      m ≤ M) := by
  have hs : CMIPProcessor.binValues [⟨1, 1, 5⟩] 0 2 0 2 ≠ [] := by
    have h01 : ((0 : ℚ) < 1) := by norm_num
    have h12 : ((1 : ℚ) ≤ 2) := by norm_num
    simp [CMIPProcessor.binValues, List.filter, h01, h12]
  have ht : CMIPProcessor.resampleGroupValues [⟨1, 7⟩] 0 2 ≠ [] := by
    have h01 : ((0 : ℚ) < 1) := by norm_num
    have h12 : ((1 : ℚ) ≤ 2) := by norm_num
    simp [CMIPProcessor.resampleGroupValues, List.filter, h01, h12]
  exact ⟨hs, ht, (c5_max_ge_mean [⟨1, 1, 5⟩] 0 2 0 2 [⟨1, 7⟩] 0 2 hs ht).1⟩

/-! ## C7: bounding-box parsing -/

/-- C7: on a bounding-box string splitting into exactly four whitespace
tokens that `float()` accepts, `_parse_bbox` assigns minx, miny, maxx,
maxy to the four converted values in order; on any string whose
whitespace-token count differs from four it raises `ValueError`. -/
theorem c7_parse_bbox (toFloat : String → Option ℚ) (bbox : String)
    (t0 t1 t2 t3 : String) (v0 v1 v2 v3 : ℚ) :
    (LandfireProcessor.pySplit bbox = [t0, t1, t2, t3] →
      toFloat t0 = some v0 → toFloat t1 = some v1 →
      toFloat t2 = some v2 → toFloat t3 = some v3 →
      LandfireProcessor.parseBbox toFloat bbox = .ok (v0, v1, v2, v3)) ∧
    ((LandfireProcessor.pySplit bbox).length ≠ 4 →
      LandfireProcessor.parseBbox toFloat bbox =
        .error "Bounding box must be in format minx miny maxx maxy") := by
  constructor
  · intro hs h0 h1 h2 h3
    simp only [LandfireProcessor.parseBbox, hs, h0, h1, h2, h3]
  · intro hlen
    rcases hl : LandfireProcessor.pySplit bbox with _ | ⟨p0, _ | ⟨p1, _ | ⟨p2, _ | ⟨p3, _ | ⟨p4, rest⟩⟩⟩⟩⟩ <;>
      simp_all [LandfireProcessor.parseBbox]

/-- C7 witness: the module's example bounding-box string, with a float
conversion that accepts every token. -/
theorem c7_parse_bbox_witness :
    LandfireProcessor.pySplit "-107.71 46.57 -106.03 47.35" =
        ["-107.71", "46.57", "-106.03", "47.35"] ∧
    LandfireProcessor.parseBbox (fun _ => some 0) "-107.71 46.57 -106.03 47.35" =
        .ok (0, 0, 0, 0) ∧
    (LandfireProcessor.pySplit "-107.71 46.57").length ≠ 4 ∧
    LandfireProcessor.parseBbox (fun _ => some 0) "-107.71 46.57" =
        .error "Bounding box must be in format minx miny maxx maxy" :=
  ⟨by decide,
   (c7_parse_bbox (fun _ => some 0) "-107.71 46.57 -106.03 47.35"
      "-107.71" "46.57" "-106.03" "47.35" 0 0 0 0).1 (by decide) rfl rfl rfl rfl,
   by decide,
   (c7_parse_bbox (fun _ => some 0) "-107.71 46.57" "" "" "" "" 0 0 0 0).2 (by decide)⟩

/-! ## C10: compute_mode ties break toward the smaller value -/

theorem foldr_natMax_mem (l : List Nat) (h : l ≠ []) : l.foldr max 0 ∈ l := by
  induction l with
  | nil => cases h rfl
  | cons x xs ih =>
    match hxs : xs with
    | [] => simp [max]
    | y :: ys =>
      rw [List.foldr_cons]
      rcases Nat.le_total (List.foldr max 0 (y :: ys)) x with hle | hle
      · rw [max_eq_left hle]
        exact List.mem_cons_self x _
      · rw [max_eq_right hle]
        exact List.mem_cons_of_mem x (ih (by simp))

theorem le_foldr_natMax (l : List Nat) (c : Nat) (hc : c ∈ l) : c ≤ l.foldr max 0 := by
  induction l with
  | nil => cases hc
  | cons x xs ih =>
    rw [List.foldr_cons]
    rcases List.mem_cons.mp hc with rfl | hmem
    · exact Nat.le_max_left c _
    · exact le_trans (ih hmem) (Nat.le_max_right x _)

theorem indexOf_le_of_get {α : Type} [DecidableEq α] (l : List α) (a : α) (j : ℕ)
    (hj : j < l.length) (hget : l.get ⟨j, hj⟩ = a) : l.indexOf a ≤ j := by
  induction l generalizing j with
  | nil => cases hj
  | cons x xs ih =>
    match j with
    | 0 =>
      have : x = a := hget
      rw [List.indexOf_cons_eq xs this]
    | Nat.succ k =>
      by_cases hx : x = a
      · rw [List.indexOf_cons_eq xs hx]
        exact Nat.zero_le _
      · rw [List.indexOf_cons_ne xs hx]
        have hk : k < xs.length := Nat.lt_of_succ_lt_succ hj
        exact Nat.succ_le_succ (ih k hk hget)

theorem mem_sortAsc (l : List ℚ) (v : ℚ) : v ∈ sortAsc l ↔ v ∈ l :=
  (List.perm_insertionSort (fun a b => a ≤ b) l).mem_iff

theorem sortAsc_sorted (l : List ℚ) : List.Sorted (fun a b => a ≤ b) (sortAsc l) :=
  List.sorted_insertionSort (fun a b => a ≤ b) l

/-- C10: for every non-empty bucket value list, `compute_mode` returns a
value of the bucket whose frequency is maximal, and among the values of
maximal frequency it returns the smallest (np.unique sorts ascending and
np.argmax returns the first maximum). -/
theorem c10_compute_mode (l : List ℚ) (h : l ≠ []) :
    LandfireProcessor.compute_mode l ∈ l ∧
    (∀ v ∈ l, l.count v ≤ l.count (LandfireProcessor.compute_mode l)) ∧
    (∀ v ∈ l, l.count v = l.count (LandfireProcessor.compute_mode l) →
      LandfireProcessor.compute_mode l ≤ v) := by
  set values := sortAsc l.dedup with hvalues
  set counts := values.map (fun v => l.count v) with hcounts
  have hmemv : ∀ v : ℚ, v ∈ values ↔ v ∈ l := by
    intro v
    rw [hvalues, mem_sortAsc, List.mem_dedup]
  have hvne : values ≠ [] := by
    intro hv
    rcases List.exists_mem_of_ne_nil l h with ⟨x, hx⟩
    have := (hmemv x).mpr hx
    rw [hv] at this
    cases this
  have hcne : counts ≠ [] := by
    intro hc
    apply hvne
    rw [hcounts] at hc
    exact List.map_eq_nil.mp hc
  have hlen : counts.length = values.length := by rw [hcounts, List.length_map]
  -- the maximum count and its first index
  have hMmem : counts.foldr max 0 ∈ counts := foldr_natMax_mem counts hcne
  have hidx : LandfireProcessor.argmaxIdx counts < counts.length := by
    rw [LandfireProcessor.argmaxIdx]
    exact List.indexOf_lt_length.mpr hMmem
  have hidxv : LandfireProcessor.argmaxIdx counts < values.length := hlen ▸ hidx
  have hmode : LandfireProcessor.compute_mode l =
      values.get ⟨LandfireProcessor.argmaxIdx counts, hidxv⟩ := by
    rw [LandfireProcessor.compute_mode]
    simp only [LandfireProcessor.npUnique, ← hvalues, ← hcounts]
    rw [List.getD_eq_get values 0 hidxv]
  have hcount_get : ∀ (j : ℕ) (hj : j < values.length),
      counts.get ⟨j, hlen ▸ hj⟩ = l.count (values.get ⟨j, hj⟩) := by
    intro j hj
    simp only [hcounts, List.get_eq_getElem, List.getElem_map]
  -- the count of the returned mode is the maximal count
  have hcountmode : l.count (LandfireProcessor.compute_mode l) = counts.foldr max 0 := by
    rw [hmode, ← hcount_get _ hidxv]
    have := List.indexOf_get (a := counts.foldr max 0) (l := counts) hidx
    simpa [LandfireProcessor.argmaxIdx] using this
  have hmodemem : LandfireProcessor.compute_mode l ∈ l := by
    rw [hmode]
    exact (hmemv _).mp (List.get_mem values _ hidxv)
  refine ⟨hmodemem, ?_, ?_⟩
  · intro v hv
    rw [hcountmode]
    apply le_foldr_natMax
    rw [hcounts]
    exact List.mem_map.mpr ⟨v, (hmemv v).mpr hv, rfl⟩
  · intro v hv hcv
    rcases List.mem_iff_get.mp ((hmemv v).mpr hv) with ⟨⟨j, hj⟩, hgetj⟩
    have hcj : counts.get ⟨j, hlen ▸ hj⟩ = counts.foldr max 0 := by
      rw [hcount_get j hj, hgetj, hcv, hcountmode]
    have hle : LandfireProcessor.argmaxIdx counts ≤ j := by
      rw [LandfireProcessor.argmaxIdx]
      exact indexOf_le_of_get counts _ j (hlen ▸ hj) hcj
    have hsorted := sortAsc_sorted l.dedup
    rw [hmode, ← hgetj]
    exact hsorted.rel_get_of_le hle

/-- C10 witness: the bucket `[1, 2, 2, 3, 3]` has the tie `{2, 3}` at
frequency two; the mode is a member of maximal frequency and is the
smallest such. -/
theorem c10_compute_mode_witness :
    ([(1 : ℚ), 2, 2, 3, 3] ≠ []) ∧
    LandfireProcessor.compute_mode [(1 : ℚ), 2, 2, 3, 3] ∈ [(1 : ℚ), 2, 2, 3, 3] ∧
    (∀ v ∈ [(1 : ℚ), 2, 2, 3, 3],
      [(1 : ℚ), 2, 2, 3, 3].count v ≤
        [(1 : ℚ), 2, 2, 3, 3].count (LandfireProcessor.compute_mode [(1 : ℚ), 2, 2, 3, 3])) :=
  ⟨by simp, (c10_compute_mode [(1 : ℚ), 2, 2, 3, 3] (by simp)).1,
    (c10_compute_mode [(1 : ℚ), 2, 2, 3, 3] (by simp)).2.1⟩

/-- C1 witness: concrete instance with span `[0, 3]` and bucket size `1`. -/
theorem c1_bucket_spatial_bins_witness :
    (0 : ℚ) < 1 ∧ (0 : ℚ) ≤ 3 ∧
    (((CMIPProcessor.bucketLabels 0 3 1).length : ℤ) = ⌈((3 : ℚ) - 0) / 1⌉ ∧
      ∀ i (h : i < (CMIPProcessor.bucketLabels 0 3 1).length)
        (hb : i < (CMIPProcessor.bucketBins 0 3 1).length),
        (CMIPProcessor.bucketLabels 0 3 1).get ⟨i, h⟩ =
          (CMIPProcessor.bucketBins 0 3 1).get ⟨i, hb⟩ + 1 / 2) :=
  ⟨by norm_num, by norm_num, (c1_bucket_spatial_bins 0 3 1 (by norm_num) (by norm_num)).1⟩

/-! ## C4: completed combinations are never resubmitted -/

/-- C4: when the progress file loaded at startup contains the job key
derived for a combination, `_start_export` for that combination returns
True without starting any export task: the state (completed set and
active task list) is unchanged. -/
theorem c4_no_resubmit (progressFile : Option (List String))
    (st : MACASeasonalBatch.DownloaderState)
    (var model scen : String) (yr0 yr1 : Int) (season : String) (collectionSize : Nat)
    (hload : st.completedTasks = MACASeasonalBatch.loadProgress progressFile)
    (hmem : MACASeasonalBatch.taskId var model scen yr0 yr1 season ∈
      MACASeasonalBatch.loadProgress progressFile) :
    MACASeasonalBatch.startExport st
      (MACASeasonalBatch.taskId var model scen yr0 yr1 season) collectionSize = (true, st) := by
  rw [MACASeasonalBatch.startExport, if_pos (hload ▸ hmem)]

/-- C4 witness: the combination (tasmax, GFDL-ESM2M, historical,
1950-1952, DJF) derives exactly the key recorded in the progress file and
is not resubmitted. -/
theorem c4_no_resubmit_witness :
    MACASeasonalBatch.taskId "tasmax" "GFDL-ESM2M" "historical" 1950 1952 "DJF" =
        "tasmax_GFDL-ESM2M_historical_1950_1952_DJF" ∧
    MACASeasonalBatch.startExport
        ⟨["tasmax_GFDL-ESM2M_historical_1950_1952_DJF"], []⟩
        (MACASeasonalBatch.taskId "tasmax" "GFDL-ESM2M" "historical" 1950 1952 "DJF") 7 =
      (true, ⟨["tasmax_GFDL-ESM2M_historical_1950_1952_DJF"], []⟩) :=
  ⟨by decide,
   c4_no_resubmit (some ["tasmax_GFDL-ESM2M_historical_1950_1952_DJF"])
      ⟨["tasmax_GFDL-ESM2M_historical_1950_1952_DJF"], []⟩
      "tasmax" "GFDL-ESM2M" "historical" 1950 1952 "DJF" 7 rfl (by decide)⟩

/-! ## C9: the False return path of _start_export -/

/-- C9 counterexample: the claim says `_start_export` returns False
exactly when the filtered collection is empty, but for a combination
already recorded as completed it returns True even when the collection
is empty (the collection is never queried on that path). -/
theorem c9_counterexample :
    "k" ∈ (⟨["k"], []⟩ : MACASeasonalBatch.DownloaderState).completedTasks ∧
    (MACASeasonalBatch.startExport ⟨["k"], []⟩ "k" 0).1 = true := by
  constructor
  · decide
  · rfl

/-- C9 (amended): for a combination not already recorded as completed,
`_start_export` returns False exactly when the filtered collection is
empty, and on that path it leaves both `completed_tasks` and
`active_tasks` unchanged; on the submitting path the job key is appended
to both `completed_tasks` and `active_tasks` at submission time and the
call returns True. -/
theorem c9_start_export_false_path (st : MACASeasonalBatch.DownloaderState)
    (tid : String) (collectionSize : Nat) (hnew : tid ∉ st.completedTasks) :
    ((MACASeasonalBatch.startExport st tid collectionSize).1 = false ↔ collectionSize = 0) ∧
    (collectionSize = 0 → MACASeasonalBatch.startExport st tid collectionSize = (false, st)) ∧
    (collectionSize ≠ 0 →
      MACASeasonalBatch.startExport st tid collectionSize =
        (true, ⟨st.completedTasks ++ [tid], st.activeTasks ++ [tid]⟩)) := by
  rw [MACASeasonalBatch.startExport, if_neg hnew]
  by_cases h0 : collectionSize = 0
  · rw [if_pos h0]
    exact ⟨by simp [h0], fun _ => rfl, fun hne => absurd h0 hne⟩
  · rw [if_neg h0]
    exact ⟨by simp [h0], fun h => absurd h h0, fun _ => rfl⟩

/-- C9 witness: a fresh combination with an empty collection is reported
False with unchanged state; a fresh combination with a non-empty
collection is submitted and recorded. -/
theorem c9_start_export_false_path_witness :
    ("new" ∉ (⟨["old"], []⟩ : MACASeasonalBatch.DownloaderState).completedTasks) ∧
    MACASeasonalBatch.startExport ⟨["old"], []⟩ "new" 0 = (false, ⟨["old"], []⟩) ∧
    MACASeasonalBatch.startExport ⟨["old"], []⟩ "new" 5 =
      (true, ⟨["old", "new"], ["new"]⟩) :=
  ⟨by decide,
   (c9_start_export_false_path ⟨["old"], []⟩ "new" 0 (by decide)).2.1 rfl,
   (c9_start_export_false_path ⟨["old"], []⟩ "new" 5 (by decide)).2.2 (by decide)⟩

/-! ## C8: the Overpass retry loop -/

theorem executeAttempts_attemptsMade_pos {α : Type} (attemptResult : Nat → Option α)
    (remaining attempt : Nat) (h : remaining ≠ 0) :
    1 ≤ (OSMDataGatherer.executeAttempts attemptResult remaining attempt).attemptsMade := by
  cases remaining with
  | zero => cases h rfl
  | succ r =>
    rw [OSMDataGatherer.executeAttempts]
    cases attemptResult attempt with
    | some v => exact Nat.le_refl 1
    | none =>
      by_cases hr : r = 0
      · subst hr
        exact Nat.le_refl 1
      · rw [if_neg hr]
        simp only []
        omega

theorem executeAttempts_spec {α : Type} (attemptResult : Nat → Option α)
    (remaining attempt : Nat) :
    (OSMDataGatherer.executeAttempts attemptResult remaining attempt).attemptsMade ≤ remaining ∧
    (OSMDataGatherer.executeAttempts attemptResult remaining attempt).sleeps =
      (List.range
        ((OSMDataGatherer.executeAttempts attemptResult remaining attempt).attemptsMade - 1)).map
        (fun i => 2 ^ (attempt + i)) ∧
    ((∀ i, attempt ≤ i → i < attempt + remaining → attemptResult i = none) →
      (OSMDataGatherer.executeAttempts attemptResult remaining attempt).result = none) := by
  induction remaining generalizing attempt with
  | zero => exact ⟨Nat.le_refl 0, rfl, fun _ => rfl⟩
  | succ rem ih =>
    rw [OSMDataGatherer.executeAttempts]
    cases hres : attemptResult attempt with
    | some r =>
      refine ⟨Nat.le_add_left 1 rem, by simp, fun hall => ?_⟩
      have := hall attempt (Nat.le_refl _) (by omega)
      rw [this] at hres
      cases hres
    | none =>
      by_cases hrem : rem = 0
      · subst hrem
        refine ⟨Nat.le_refl 1, by simp, fun _ => rfl⟩
      · rw [if_neg hrem]
        rcases ih (attempt + 1) with ⟨ihlen, ihsleeps, ihnone⟩
        have hmade := executeAttempts_attemptsMade_pos attemptResult rem (attempt + 1) hrem
        refine ⟨by simpa using Nat.succ_le_succ ihlen, ?_, fun hall => ?_⟩
        · simp only [ihsleeps]
          rw [show (OSMDataGatherer.executeAttempts attemptResult rem (attempt + 1)).attemptsMade
              + 1 - 1 =
              ((OSMDataGatherer.executeAttempts attemptResult rem (attempt + 1)).attemptsMade - 1)
              + 1 by omega]
          rw [List.range_succ_eq_map, List.map_cons, List.map_map]
          refine congrArg₂ List.cons (by simp) ?_
          apply List.map_congr_left
          intro i _
          simp only [Function.comp_apply]
          congr 1
          omega
        · exact ihnone (fun i hlo hhi => hall i (by omega) (by omega))

/-- C8: `_execute_overpass_query` makes at most `max_retries` HTTP
attempts (default 3); after each failed attempt numbered `i` (0-based)
with further attempts remaining it sleeps `2 ^ i` seconds; and when
every attempt fails it returns None instead of raising. -/
theorem c8_overpass_retry {α : Type} (attemptResult : Nat → Option α) (maxRetries : Nat) :
    (OSMDataGatherer.executeOverpassQuery attemptResult maxRetries).attemptsMade ≤ maxRetries ∧
    (OSMDataGatherer.executeOverpassQuery attemptResult maxRetries).sleeps =
      (List.range
        ((OSMDataGatherer.executeOverpassQuery attemptResult maxRetries).attemptsMade - 1)).map
        (fun i => 2 ^ i) ∧
    ((∀ i, i < maxRetries → attemptResult i = none) →
      (OSMDataGatherer.executeOverpassQuery attemptResult maxRetries).result = none) := by
  rcases executeAttempts_spec attemptResult maxRetries 0 with ⟨h1, h2, h3⟩
  refine ⟨h1, ?_, fun hall => h3 (fun i _ hi => hall i (by omega))⟩
  have hgoal : (OSMDataGatherer.executeAttempts attemptResult maxRetries 0).sleeps =
      (List.range
        ((OSMDataGatherer.executeAttempts attemptResult maxRetries 0).attemptsMade - 1)).map
        (fun i => 2 ^ i) := by
    rw [h2]
    apply List.map_congr_left
    intro i _
    rw [Nat.zero_add]
  exact hgoal

/-- C8 witness: with the default three retries and every attempt
failing, the query makes at most three attempts, sleeps 1 then 2
seconds, and returns None. -/
theorem c8_overpass_retry_witness :
    (OSMDataGatherer.executeOverpassQuery (fun _ => (none : Option Nat)) 3).attemptsMade ≤ 3 ∧
    (OSMDataGatherer.executeOverpassQuery (fun _ => (none : Option Nat)) 3).sleeps =
      (List.range
        ((OSMDataGatherer.executeOverpassQuery (fun _ => (none : Option Nat)) 3).attemptsMade
          - 1)).map (fun i => 2 ^ i) ∧
    (OSMDataGatherer.executeOverpassQuery (fun _ => (none : Option Nat)) 3).result = none := by
  rcases c8_overpass_retry (fun _ => (none : Option Nat)) 3 with ⟨h1, h2, h3⟩
  exact ⟨h1, h2, h3 (fun i _ => rfl)⟩

/-! ## C6: OSM element conversion -/

/-- C6 counterexample: a closed way tagged `building=yes` (an
area-indicating tag in the claim's list) but also `area=no` converts to
a LineString, not to a Polygon as the claim states: the code lets an
explicit non-affirmative `area` tag override every other area key. -/
theorem c6_counterexample :
    (OSMToGeoJSON.wayCoords OSMToGeoJSON.c6Way).head? =
        (OSMToGeoJSON.wayCoords OSMToGeoJSON.c6Way).getLast? ∧
    OSMToGeoJSON.specAreaIndicating [("building", "yes"), ("area", "no")] ∧
    OSMToGeoJSON.convertWay OSMToGeoJSON.c6Way =
      some { geometry := .lineString [(0, 0), (1, 1), (0, 0)]
             osmId := 1
             osmType := "way"
             tags := [("building", "yes"), ("area", "no")] } := by
  refine ⟨by decide, Or.inl ⟨"building", by decide, by decide⟩, by decide⟩

/-- C6 (amended): a node converts to exactly one Point feature at
`[lon, lat]`; a way with at least two coordinates converts to exactly
one Polygon feature whose single ring is the way's coordinate list when
it is closed and the code's area test passes (an explicit `area` tag
decides alone by its lowercased value being yes/true/1, otherwise the
presence of one of the listed area keys decides), and to exactly one
LineString feature otherwise; a way with fewer than two coordinates is
dropped. -/
theorem c6_convert_elements {C : Type} [DecidableEq C]
    (node : OSMToGeoJSON.OsmNode C) (way : OSMToGeoJSON.OsmWay C)
    (hlen : 2 ≤ (OSMToGeoJSON.wayCoords way).length)
    (way2 : OSMToGeoJSON.OsmWay C)
    (hlen2 : (OSMToGeoJSON.wayCoords way2).length < 2) :
    OSMToGeoJSON.convertNode node =
      { geometry := .point (node.lon, node.lat)
        osmId := node.id
        osmType := "node"
        tags := node.tags.getD [] } ∧
    ((OSMToGeoJSON.wayCoords way).head? = (OSMToGeoJSON.wayCoords way).getLast? ∧
        OSMToGeoJSON.wayIsArea way = true →
      OSMToGeoJSON.convertWay way =
        some { geometry := .polygon [OSMToGeoJSON.wayCoords way]
               osmId := way.id
               osmType := "way"
               tags := way.tags.getD [] }) ∧
    (¬((OSMToGeoJSON.wayCoords way).head? = (OSMToGeoJSON.wayCoords way).getLast? ∧
        OSMToGeoJSON.wayIsArea way = true) →
      OSMToGeoJSON.convertWay way =
        some { geometry := .lineString (OSMToGeoJSON.wayCoords way)
               osmId := way.id
               osmType := "way"
               tags := way.tags.getD [] }) ∧
    OSMToGeoJSON.convertWay way2 = none := by
  have hne : way.geometry ≠ [] := by
    intro hg
    rw [OSMToGeoJSON.wayCoords, hg] at hlen
    simp at hlen
  have hlt : ¬ (OSMToGeoJSON.wayCoords way).length < 2 := by omega
  have hshape : OSMToGeoJSON.convertWay way =
      some { geometry :=
              if decide ((OSMToGeoJSON.wayCoords way).head? =
                    (OSMToGeoJSON.wayCoords way).getLast?) && OSMToGeoJSON.wayIsArea way then
                .polygon [OSMToGeoJSON.wayCoords way]
              else .lineString (OSMToGeoJSON.wayCoords way)
             osmId := way.id
             osmType := "way"
             tags := way.tags.getD [] } := by
    rw [OSMToGeoJSON.convertWay, if_neg hne]
    simp only [if_neg hlt]
  refine ⟨rfl, ?_, ?_, ?_⟩
  · rintro ⟨hclosed, harea⟩
    rw [hshape, hclosed, harea]
    simp
  · intro hnot
    rw [hshape]
    have hcond : (decide ((OSMToGeoJSON.wayCoords way).head? =
        (OSMToGeoJSON.wayCoords way).getLast?) && OSMToGeoJSON.wayIsArea way) = false := by
      rcases Bool.eq_false_or_eq_true (OSMToGeoJSON.wayIsArea way) with ht | hf
      · rcases Decidable.em
            ((OSMToGeoJSON.wayCoords way).head? = (OSMToGeoJSON.wayCoords way).getLast?) with
          hc | hc
        · exact absurd ⟨hc, ht⟩ hnot
        · simp [hc]
      · simp [hf]
    rw [hcond]
    simp
  · by_cases hg2 : way2.geometry = []
    · rw [OSMToGeoJSON.convertWay, if_pos hg2]
    · rw [OSMToGeoJSON.convertWay, if_neg hg2]
      simp only [if_pos hlen2]

/-- C6 witness: a node, a closed `building=yes` way becoming a Polygon,
and a two-point open way becoming a LineString (shown via the
counterexample-independent amended theorem at integer coordinates). -/
theorem c6_convert_elements_witness :
    OSMToGeoJSON.convertNode (⟨7, 2, 3, none⟩ : OSMToGeoJSON.OsmNode ℤ) =
      { geometry := .point (3, 2), osmId := 7, osmType := "node", tags := [] } ∧
    OSMToGeoJSON.convertWay
        (⟨1, [⟨0, 0⟩, ⟨1, 1⟩, ⟨0, 0⟩], some [("building", "yes")]⟩ : OSMToGeoJSON.OsmWay ℤ) =
      some { geometry := .polygon [[(0, 0), (1, 1), (0, 0)]]
             osmId := 1
             osmType := "way"
             tags := [("building", "yes")] } ∧
    OSMToGeoJSON.convertWay
        (⟨2, [⟨0, 0⟩, ⟨1, 1⟩], some [("highway", "residential-road")]⟩ :
          OSMToGeoJSON.OsmWay ℤ) =
      some { geometry := .lineString [(0, 0), (1, 1)]
             osmId := 2
             osmType := "way"
             tags := [("highway", "residential-road")] } := by
  refine ⟨(c6_convert_elements (⟨7, 2, 3, none⟩ : OSMToGeoJSON.OsmNode ℤ)
      ⟨1, [⟨0, 0⟩, ⟨1, 1⟩, ⟨0, 0⟩], some [("building", "yes")]⟩ (by decide)
      ⟨0, [], none⟩ (by decide)).1, ?_, ?_⟩
  · exact (c6_convert_elements (⟨7, 2, 3, none⟩ : OSMToGeoJSON.OsmNode ℤ)
      ⟨1, [⟨0, 0⟩, ⟨1, 1⟩, ⟨0, 0⟩], some [("building", "yes")]⟩ (by decide)
      ⟨0, [], none⟩ (by decide)).2.1 ⟨by decide, by decide⟩
  · exact (c6_convert_elements (⟨7, 2, 3, none⟩ : OSMToGeoJSON.OsmNode ℤ)
      ⟨2, [⟨0, 0⟩, ⟨1, 1⟩], some [("highway", "residential-road")]⟩ (by decide)
      ⟨0, [], none⟩ (by decide)).2.2.1 (by decide)

/-! ## C3: build_datacube grid, naming and time sequence -/

theorem foldl_min_le_init (xs : List ℚ) (init : ℚ) : xs.foldl min init ≤ init := by
  induction xs generalizing init with
  | nil => exact le_refl init
  | cons y t ih => exact le_trans (ih (min init y)) (min_le_left init y)

theorem foldl_min_le_mem (xs : List ℚ) (init x : ℚ) (hx : x ∈ xs) : xs.foldl min init ≤ x := by
  induction xs generalizing init with
  | nil => cases hx
  | cons y t ih =>
    rcases List.mem_cons.mp hx with rfl | hmem
    · exact le_trans (foldl_min_le_init t (min init x)) (min_le_right init x)
    · exact ih (min init y) hmem

theorem foldl_max_mem_le (xs : List ℚ) (init x : ℚ) (hx : x ∈ xs) : x ≤ xs.foldl max init := by
  induction xs generalizing init with
  | nil => cases hx
  | cons y t ih =>
    rcases List.mem_cons.mp hx with rfl | hmem
    · exact le_trans (le_max_right init x) (le_foldl_max t (max init x))
    · exact ih (max init y) hmem

theorem datasetsLatMin_le (datasets : List (String × DatacubeBuilder.SpatialDataset))
    (p : String × DatacubeBuilder.SpatialDataset) (hp : p ∈ datasets) :
    DatacubeBuilder.datasetsLatMin datasets ≤ p.2.latMin := by
  rw [DatacubeBuilder.datasetsLatMin, ← List.foldl_map (fun q => q.2.latMin) min datasets 90]
  exact foldl_min_le_mem _ 90 _ (List.mem_map.mpr ⟨p, hp, rfl⟩)

theorem le_datasetsLatMax (datasets : List (String × DatacubeBuilder.SpatialDataset))
    (p : String × DatacubeBuilder.SpatialDataset) (hp : p ∈ datasets) :
    p.2.latMax ≤ DatacubeBuilder.datasetsLatMax datasets := by
  rw [DatacubeBuilder.datasetsLatMax, ← List.foldl_map (fun q => q.2.latMax) max datasets (-90)]
  exact foldl_max_mem_le _ (-90) _ (List.mem_map.mpr ⟨p, hp, rfl⟩)

theorem datasetsLonMin_le (datasets : List (String × DatacubeBuilder.SpatialDataset))
    (p : String × DatacubeBuilder.SpatialDataset) (hp : p ∈ datasets) :
    DatacubeBuilder.datasetsLonMin datasets ≤ p.2.lonMin := by
  rw [DatacubeBuilder.datasetsLonMin, ← List.foldl_map (fun q => q.2.lonMin) min datasets 180]
  exact foldl_min_le_mem _ 180 _ (List.mem_map.mpr ⟨p, hp, rfl⟩)

theorem le_datasetsLonMax (datasets : List (String × DatacubeBuilder.SpatialDataset))
    (p : String × DatacubeBuilder.SpatialDataset) (hp : p ∈ datasets) :
    p.2.lonMax ≤ DatacubeBuilder.datasetsLonMax datasets := by
  rw [DatacubeBuilder.datasetsLonMax, ← List.foldl_map (fun q => q.2.lonMax) max datasets (-180)]
  exact foldl_max_mem_le _ (-180) _ (List.mem_map.mpr ⟨p, hp, rfl⟩)

/-- A unified grid along one axis: head, element formula, and the bound
on its last element.  `cmin ≤ cmax` must hold of the accumulated bounds;
`res > 0` is the requested resolution. -/
theorem unifiedAxis_spec (cmin cmax res : ℚ) (hres : 0 < res) (hle : cmin ≤ cmax) :
    (arange cmin (cmax + res / 2) res).head? = some cmin ∧
    (∀ i (h : i < (arange cmin (cmax + res / 2) res).length),
      (arange cmin (cmax + res / 2) res).get ⟨i, h⟩ = cmin + i * res) ∧
    (∃ c, (arange cmin (cmax + res / 2) res).getLast? = some c ∧ cmax - res / 2 ≤ c) := by
  have hxpos : 0 < (cmax + res / 2 - cmin) / res := by
    apply div_pos (by linarith) hres
  have hceilpos : 0 < ⌈(cmax + res / 2 - cmin) / res⌉ := Int.ceil_pos.mpr hxpos
  have hlen : (arange cmin (cmax + res / 2) res).length =
      (⌈(cmax + res / 2 - cmin) / res⌉).toNat := arange_length _ _ _
  have hlenpos : 0 < (arange cmin (cmax + res / 2) res).length := by
    rw [hlen]
    omega
  refine ⟨?_, arange_get _ _ _, ?_⟩
  · rw [List.head?_eq_getElem?, List.getElem?_eq_getElem hlenpos]
    have h0 := arange_get cmin (cmax + res / 2) res 0 hlenpos
    rw [List.get_eq_getElem] at h0
    rw [h0]
    norm_num
  · have hlast : (arange cmin (cmax + res / 2) res).getLast? =
        (arange cmin (cmax + res / 2) res)[(arange cmin (cmax + res / 2) res).length - 1]? :=
      List.getLast?_eq_getElem? _
    have hidx : (arange cmin (cmax + res / 2) res).length - 1 <
        (arange cmin (cmax + res / 2) res).length := by omega
    refine ⟨cmin + ((arange cmin (cmax + res / 2) res).length - 1 : ℕ) * res, ?_, ?_⟩
    · rw [hlast, List.getElem?_eq_getElem hidx]
      have := arange_get cmin (cmax + res / 2) res _ hidx
      rw [List.get_eq_getElem] at this
      rw [this]
    · have hceil_le : (cmax + res / 2 - cmin) / res ≤ (⌈(cmax + res / 2 - cmin) / res⌉ : ℚ) :=
        Int.le_ceil _
    -- cast the length back to the ceiling
      have hcast : (((arange cmin (cmax + res / 2) res).length : ℕ) : ℚ) =
          ((⌈(cmax + res / 2 - cmin) / res⌉ : ℤ) : ℚ) := by
        rw [hlen]
        norm_cast
        omega
      have hlen1 : 1 ≤ (arange cmin (cmax + res / 2) res).length := hlenpos
      have hsub : (((arange cmin (cmax + res / 2) res).length - 1 : ℕ) : ℚ) =
          (((arange cmin (cmax + res / 2) res).length : ℕ) : ℚ) - 1 := by
        push_cast [Nat.cast_sub hlen1]
        ring
      rw [hsub, hcast]
      have hmul : cmax + res / 2 - cmin ≤ (⌈(cmax + res / 2 - cmin) / res⌉ : ℚ) * res := by
        rw [← div_le_iff₀ hres]
        exact hceil_le
      nlinarith [hmul]

theorem monthIndex_nextMonthMid (c : DatacubeBuilder.CFDate) :
    DatacubeBuilder.monthIndex (DatacubeBuilder.nextMonthMid c) =
      DatacubeBuilder.monthIndex c + 1 := by
  rw [DatacubeBuilder.monthIndex, DatacubeBuilder.monthIndex, DatacubeBuilder.nextMonthMid]
  push_cast
  omega

theorem cfLe_monthIndex_le (a b : DatacubeBuilder.CFDate)
    (h : DatacubeBuilder.cfLe a b = true) :
    DatacubeBuilder.monthIndex a ≤ DatacubeBuilder.monthIndex b := by
  rw [DatacubeBuilder.cfLe] at h
  simp only [Bool.or_eq_true, Bool.and_eq_true, decide_eq_true_eq] at h
  rcases h with h | ⟨h, -⟩ <;> omega

theorem cfLe_false_of_gt (a b : DatacubeBuilder.CFDate)
    (h : DatacubeBuilder.monthIndex b < DatacubeBuilder.monthIndex a) :
    DatacubeBuilder.cfLe a b = false := by
  rw [DatacubeBuilder.cfLe]
  simp only [Bool.or_eq_false_iff, Bool.and_eq_false_iff, decide_eq_false_iff_not]
  exact ⟨by omega, Or.inl (by omega)⟩

/-- The fuel of `monthlySeq` is sufficient: giving the loop one more
iteration than `monthIndex stop + 1 - monthIndex current` changes
nothing, so the bounded loop agrees with the Python while loop. -/
theorem monthlySeqAux_fuel_irrelevant (stop : DatacubeBuilder.CFDate) (fuel : Nat) :
    ∀ current : DatacubeBuilder.CFDate,
      (DatacubeBuilder.monthIndex stop + 1 - DatacubeBuilder.monthIndex current).toNat ≤ fuel →
      DatacubeBuilder.monthlySeqAux stop (fuel + 1) current =
        DatacubeBuilder.monthlySeqAux stop fuel current := by
  induction fuel with
  | zero =>
    intro current hbound
    have hgt : DatacubeBuilder.monthIndex stop < DatacubeBuilder.monthIndex current := by omega
    have hguard := cfLe_false_of_gt current stop hgt
    simp [DatacubeBuilder.monthlySeqAux, hguard]
  | succ f ih =>
    intro current hbound
    rw [DatacubeBuilder.monthlySeqAux]
    conv_rhs => rw [DatacubeBuilder.monthlySeqAux]
    cases hguard : DatacubeBuilder.cfLe current stop with
    | false => simp [hguard]
    | true =>
      simp only [hguard, if_true]
      congr 1
      apply ih
      have hle := cfLe_monthIndex_le current stop hguard
      rw [monthIndex_nextMonthMid]
      omega

theorem monthlySeqAux_mem (stop : DatacubeBuilder.CFDate) (fuel : Nat) :
    ∀ current t, t ∈ DatacubeBuilder.monthlySeqAux stop fuel current →
      DatacubeBuilder.cfLe t stop = true := by
  induction fuel with
  | zero =>
    intro current t ht
    rw [DatacubeBuilder.monthlySeqAux] at ht
    cases ht
  | succ f ih =>
    intro current t ht
    simp only [DatacubeBuilder.monthlySeqAux] at ht
    cases hguard : DatacubeBuilder.cfLe current stop with
    | false => simp [hguard] at ht
    | true =>
      simp only [hguard, if_true] at ht
      rcases List.mem_cons.mp ht with rfl | hmem
      · exact hguard
      · exact ih (DatacubeBuilder.nextMonthMid current) t hmem

theorem monthlySeq_head (start stop : DatacubeBuilder.CFDate)
    (hss : DatacubeBuilder.cfLe start stop = true) :
    (DatacubeBuilder.monthlySeq start stop).head? = some start := by
  have hmi := cfLe_monthIndex_le start stop hss
  have hfuel : ∃ f, (DatacubeBuilder.monthIndex stop + 1 -
      DatacubeBuilder.monthIndex start).toNat = f + 1 := by
    refine ⟨(DatacubeBuilder.monthIndex stop - DatacubeBuilder.monthIndex start).toNat, ?_⟩
    omega
  rcases hfuel with ⟨f, hf⟩
  rw [DatacubeBuilder.monthlySeq, hf, DatacubeBuilder.monthlySeqAux, if_pos hss]
  rfl

/-- C3 counterexample: a dataset with latitude extent `[10, 10.4]` at
1-degree resolution produces the unified latitude grid `[10]`, which has
no point at or above 10.4 — the returned coordinates do not span the
union of the inputs' extents. -/
theorem c3_counterexample :
    ¬ DatacubeBuilder.specSpansUnion
        (DatacubeBuilder.unifiedLats DatacubeBuilder.c3CexDatasets 1)
        DatacubeBuilder.c3CexDatasets := by
  have hm : DatacubeBuilder.datasetsLatMin DatacubeBuilder.c3CexDatasets = 10 := by
    rw [DatacubeBuilder.c3CexDatasets, DatacubeBuilder.datasetsLatMin]
    simp only [List.foldl_cons, List.foldl_nil]
    norm_num
  have hM : DatacubeBuilder.datasetsLatMax DatacubeBuilder.c3CexDatasets = 52 / 5 := by
    rw [DatacubeBuilder.c3CexDatasets, DatacubeBuilder.datasetsLatMax]
    simp only [List.foldl_cons, List.foldl_nil]
    rw [max_eq_right (by norm_num)]
  have hceil : ⌈((52 : ℚ) / 5 + 1 / 2 - 10) / 1⌉ = 1 := by
    norm_num [Int.ceil_eq_iff]
  have hlats : DatacubeBuilder.unifiedLats DatacubeBuilder.c3CexDatasets 1 = [10] := by
    rw [DatacubeBuilder.unifiedLats, hm, hM, arange, hceil]
    simp [List.range_succ]
  intro h
  rcases h _ (List.mem_singleton_self _) with ⟨-, hi, hmem, hle⟩
  rw [hlats, List.mem_singleton] at hmem
  subst hmem
  norm_num at hle

/-- C3 (amended): for added datasets whose spatial dimensions were all
identified by the alias lists, `build_datacube` returns a dataset whose
data variables are exactly the inputs' variables under the names
`<dataset-name>_<variable-name>`; the lat (lon) coordinate is an
arithmetic grid at the requested resolution that starts at the union
minimum of the inputs' extents and whose last point is at least the
union maximum minus half a resolution step — it may stop short of the
union maximum itself; on the non-standard-calendar monthly path the time
coordinate starts at the earliest input time and never exceeds the
latest. -/
theorem c3_build_datacube (datasets : List (String × DatacubeBuilder.SpatialDataset))
    (latRes lonRes : ℚ) (hlatres : 0 < latRes) (hlonres : 0 < lonRes)
    (hne : datasets ≠ [])
    (hvalid : ∀ p ∈ datasets, p.2.latMin ≤ p.2.latMax ∧ p.2.lonMin ≤ p.2.lonMax)
    (start stop : DatacubeBuilder.CFDate)
    (hss : DatacubeBuilder.cfLe start stop = true) :
    (∀ p ∈ datasets, ∀ v ∈ p.2.varNames,
      (p.1 ++ "_" ++ v) ∈ DatacubeBuilder.prefixedVarNames datasets) ∧
    ((DatacubeBuilder.unifiedLats datasets latRes).head? =
        some (DatacubeBuilder.datasetsLatMin datasets) ∧
      (∀ i (h : i < (DatacubeBuilder.unifiedLats datasets latRes).length),
        (DatacubeBuilder.unifiedLats datasets latRes).get ⟨i, h⟩ =
          DatacubeBuilder.datasetsLatMin datasets + i * latRes) ∧
      (∀ p ∈ datasets, DatacubeBuilder.datasetsLatMin datasets ≤ p.2.latMin ∧
        ∃ c, (DatacubeBuilder.unifiedLats datasets latRes).getLast? = some c ∧
          p.2.latMax - latRes / 2 ≤ c)) ∧
    ((DatacubeBuilder.unifiedLons datasets lonRes).head? =
        some (DatacubeBuilder.datasetsLonMin datasets) ∧
      (∀ p ∈ datasets, DatacubeBuilder.datasetsLonMin datasets ≤ p.2.lonMin ∧
        ∃ c, (DatacubeBuilder.unifiedLons datasets lonRes).getLast? = some c ∧
          p.2.lonMax - lonRes / 2 ≤ c)) ∧
    ((DatacubeBuilder.monthlySeq start stop).head? = some start ∧
      ∀ t ∈ DatacubeBuilder.monthlySeq start stop, DatacubeBuilder.cfLe t stop = true) := by
  rcases List.exists_mem_of_ne_nil datasets hne with ⟨p0, hp0⟩
  have hlatle : DatacubeBuilder.datasetsLatMin datasets ≤
      DatacubeBuilder.datasetsLatMax datasets :=
    le_trans (datasetsLatMin_le datasets p0 hp0)
      (le_trans (hvalid p0 hp0).1 (le_datasetsLatMax datasets p0 hp0))
  have hlonle : DatacubeBuilder.datasetsLonMin datasets ≤
      DatacubeBuilder.datasetsLonMax datasets :=
    le_trans (datasetsLonMin_le datasets p0 hp0)
      (le_trans (hvalid p0 hp0).2 (le_datasetsLonMax datasets p0 hp0))
  rcases unifiedAxis_spec (DatacubeBuilder.datasetsLatMin datasets)
      (DatacubeBuilder.datasetsLatMax datasets) latRes hlatres hlatle with
    ⟨hlath, hlatget, c, hlatlast, hlatbound⟩
  rcases unifiedAxis_spec (DatacubeBuilder.datasetsLonMin datasets)
      (DatacubeBuilder.datasetsLonMax datasets) lonRes hlonres hlonle with
    ⟨hlonh, -, d, hlonlast, hlonbound⟩
  refine ⟨?_, ⟨hlath, hlatget, ?_⟩, ⟨hlonh, ?_⟩, monthlySeq_head start stop hss, ?_⟩
  · intro p hp v hv
    rw [DatacubeBuilder.prefixedVarNames]
    apply List.mem_join.mpr
    exact ⟨p.2.varNames.map (fun w => p.1 ++ "_" ++ w),
      List.mem_map.mpr ⟨p, hp, rfl⟩, List.mem_map.mpr ⟨v, hv, rfl⟩⟩
  · intro p hp
    refine ⟨datasetsLatMin_le datasets p hp, c, hlatlast, ?_⟩
    have := le_datasetsLatMax datasets p hp
    linarith
  · intro p hp
    refine ⟨datasetsLonMin_le datasets p hp, d, hlonlast, ?_⟩
    have := le_datasetsLonMax datasets p hp
    linarith
  · intro t ht
    exact monthlySeqAux_mem stop _ start t ht

/-- C3 witness: one dataset with extent `[0, 2] × [0, 3]` and variable
`temperature` at 1-degree resolution, over one model year. -/
theorem c3_build_datacube_witness :
    ((0 : ℚ) < 1) ∧
    ([("temperature", ⟨0, 2, 0, 3, ["temperature"]⟩)] :
      List (String × DatacubeBuilder.SpatialDataset)) ≠ [] ∧
    DatacubeBuilder.cfLe ⟨1950, 1, 15⟩ ⟨1951, 1, 15⟩ = true ∧
    (∀ p ∈ ([("temperature", ⟨0, 2, 0, 3, ["temperature"]⟩)] :
        List (String × DatacubeBuilder.SpatialDataset)), ∀ v ∈ p.2.varNames,
      (p.1 ++ "_" ++ v) ∈ DatacubeBuilder.prefixedVarNames
        [("temperature", ⟨0, 2, 0, 3, ["temperature"]⟩)]) ∧
    ((DatacubeBuilder.monthlySeq ⟨1950, 1, 15⟩ ⟨1951, 1, 15⟩).head? = some ⟨1950, 1, 15⟩) := by
  have hvalid : ∀ p ∈ ([("temperature", ⟨0, 2, 0, 3, ["temperature"]⟩)] :
      List (String × DatacubeBuilder.SpatialDataset)),
      p.2.latMin ≤ p.2.latMax ∧ p.2.lonMin ≤ p.2.lonMax := by
    intro p hp
    rw [List.mem_singleton] at hp
    subst hp
    exact ⟨by norm_num, by norm_num⟩
  have h := c3_build_datacube [("temperature", ⟨0, 2, 0, 3, ["temperature"]⟩)] 1 1
    (by norm_num) (by norm_num) (by simp) hvalid ⟨1950, 1, 15⟩ ⟨1951, 1, 15⟩ (by decide)
  exact ⟨by norm_num, by simp, by decide, h.1, h.2.2.2.1⟩

end MakaSitomniya
